import Mathlib

/-!
Shallow embedding of the Hackaton-Project blackjack client/server:
`protocol.py` (fixed-size binary wire codec), `game.py` (hand arithmetic),
and `server.py` (the per-round state machine `play_one_round` and the
per-connection loop `handle_client`).

Byte buffers are `List Nat` whose elements are `< 256`; text fields (names,
decisions) are modelled at the byte level, i.e. as the result of Python's
`str.encode`.  Big-endian multi-byte integers are read and written with
explicit `/ 256` / `% 256` arithmetic, mirroring `struct.pack("!...")`.
Socket sends are modelled as an accumulated list of frames, socket reads as
an input list of decisions; `None`/exceptions become `Option.none`.
-/

/-! ## protocol.py constants -/

def MAGIC_COOKIE : Nat := 0xabcddcba

def TYPE_OFFER : Nat := 0x2

def TYPE_REQUEST : Nat := 0x3

def TYPE_PAYLOAD : Nat := 0x4

def RESULT_NOT_OVER : Nat := 0x0

def RESULT_TIE : Nat := 0x1

def RESULT_LOSS : Nat := 0x2

def RESULT_WIN : Nat := 0x3

def NAME_LEN : Nat := 32

def OFFER_SIZE : Nat := 4 + 1 + 2 + NAME_LEN

def REQUEST_SIZE : Nat := 4 + 1 + 1 + NAME_LEN

def CLIENT_PAYLOAD_SIZE : Nat := 4 + 1 + 5

def SERVER_PAYLOAD_SIZE : Nat := 4 + 1 + 1 + 2 + 1

/-! ## Big-endian byte packing (struct.pack / struct.unpack "!") -/

/-- Write a 16-bit integer big-endian (`struct.pack "!H"`). -/
def be16 (n : Nat) : List Nat := [n / 256 % 256, n % 256]

/-- Write a 32-bit integer big-endian (`struct.pack "!I"`). -/
def be32 (n : Nat) : List Nat :=
  [n / 16777216 % 256, n / 65536 % 256, n / 256 % 256, n % 256]

/-- Read a 16-bit big-endian integer at offset `i` (`struct.unpack "!H"`). -/
def rd16 (b : List Nat) (i : Nat) : Nat := b.getD i 0 * 256 + b.getD (i + 1) 0

/-- Read a 32-bit big-endian integer at offset `i` (`struct.unpack "!I"`). -/
def rd32 (b : List Nat) (i : Nat) : Nat :=
  ((b.getD i 0 * 256 + b.getD (i + 1) 0) * 256 + b.getD (i + 2) 0) * 256
    + b.getD (i + 3) 0

/-! ## protocol.py codec -/

/-- `_pack_name`: truncate the (already utf-8 encoded) name to 32 bytes and
right-pad with zero bytes (`raw.ljust(NAME_LEN, b"\x00")`). -/
def pack_name (name : List Nat) : List Nat :=
  let raw := name.take NAME_LEN
  raw ++ List.replicate (NAME_LEN - raw.length) 0

/-- `_unpack_name`: everything before the first zero byte
(`b.split(b"\x00", 1)[0]`). -/
def unpack_name (b : List Nat) : List Nat := b.takeWhile (fun x => x != 0)

/-- `pack_offer`: cookie(4) + type(1) + tcp_port(2, masked to 16 bits) +
name(32). -/
def pack_offer (tcp_port : Nat) (server_name : List Nat) : List Nat :=
  be32 MAGIC_COOKIE ++ [TYPE_OFFER] ++ be16 (tcp_port % 65536)
    ++ pack_name server_name

/-- `unpack_offer`: reject buffers shorter than 39 bytes, then check cookie
and type tag; trailing bytes beyond 39 are ignored. -/
def unpack_offer (data : List Nat) : Option (Nat × List Nat) :=
  if data.length < OFFER_SIZE then none
  else if rd32 data 0 = MAGIC_COOKIE ∧ data.getD 4 0 = TYPE_OFFER then
    some (rd16 data 5, unpack_name ((data.drop 7).take NAME_LEN))
  else none

/-- `pack_request`: cookie(4) + type(1) + rounds(1, masked to 8 bits) +
name(32). -/
def pack_request (num_rounds : Nat) (client_name : List Nat) : List Nat :=
  be32 MAGIC_COOKIE ++ [TYPE_REQUEST] ++ [num_rounds % 256]
    ++ pack_name client_name

/-- `unpack_request`: reject buffers shorter than 38 bytes, then check cookie
and type tag; trailing bytes beyond 38 are ignored. -/
def unpack_request (data : List Nat) : Option (Nat × List Nat) :=
  if data.length < REQUEST_SIZE then none
  else if rd32 data 0 = MAGIC_COOKIE ∧ data.getD 4 0 = TYPE_REQUEST then
    some (data.getD 5 0, unpack_name ((data.drop 6).take NAME_LEN))
  else none

/-- ASCII bytes of the decision string for hit. -/
def HITTT : List Nat := [72, 105, 116, 116, 116]

/-- ASCII bytes of the decision string for stand. -/
def STAND : List Nat := [83, 116, 97, 110, 100]

/-- `pack_client_payload`: raises `ValueError` (here `none`) unless the
decision is exactly the hit or stand string. -/
def pack_client_payload (decision : List Nat) : Option (List Nat) :=
  if decision = HITTT ∨ decision = STAND then
    some (be32 MAGIC_COOKIE ++ [TYPE_PAYLOAD] ++ decision)
  else none

/-- `unpack_client_payload`: the buffer must be exactly 10 bytes, carry the
cookie and payload tag, and its last 5 bytes must be exactly the hit or
stand string.  (Python compares the `ascii`-decoded text; for the two
all-ASCII 5-character candidates that comparison coincides with byte
equality of `data[5:10]`.) -/
def unpack_client_payload (data : List Nat) : Option (List Nat) :=
  if data.length ≠ CLIENT_PAYLOAD_SIZE then none
  else if rd32 data 0 = MAGIC_COOKIE ∧ data.getD 4 0 = TYPE_PAYLOAD then
    let decision := (data.drop 5).take 5
    if decision = HITTT ∨ decision = STAND then some decision else none
  else none

/-- `pack_server_payload`: cookie(4) + type(1) + result(1) + rank(2) +
suit(1), each field masked to its width. -/
def pack_server_payload (result_code rank suit : Nat) : List Nat :=
  be32 MAGIC_COOKIE ++ [TYPE_PAYLOAD] ++ [result_code % 256]
    ++ be16 (rank % 65536) ++ [suit % 256]

/-- `unpack_server_payload`: the buffer must be exactly 9 bytes and carry the
cookie and payload tag. -/
def unpack_server_payload (data : List Nat) : Option (Nat × Nat × Nat) :=
  if data.length ≠ SERVER_PAYLOAD_SIZE then none
  else if rd32 data 0 = MAGIC_COOKIE ∧ data.getD 4 0 = TYPE_PAYLOAD then
    some (data.getD 5 0, rd16 data 6, data.getD 8 0)
  else none

/-! ## game.py -/

/-- A card is `(rank 1-13, suit 0-3)`. -/
abbrev Card := Nat × Nat

/-- `card_value`: Ace is always 11; Jack/Queen/King count 10; every other
rank counts as itself. -/
def card_value (rank : Nat) : Nat :=
  if rank = 1 then 11 else if 11 ≤ rank then 10 else rank

/-- `hand_value`: the plain sum of the card values (no soft-ace
re-valuation). -/
def hand_value (hand : List Card) : Nat :=
  (hand.map (fun c => card_value c.1)).sum

/-! ## server.py round engine -/

/-- One ServerPayload frame as sent by `send_card`: a result code and the
card it rides on. -/
structure Sent where
  result : Nat
  card : Card
deriving DecidableEq, Repr

/-- A decoded client decision (an undecodable payload aborts the round and is
modelled as the input list running out). -/
inductive Decision where
  | hittt
  | stand
deriving DecidableEq, Repr

/-- Everything observable about one finished round: the ServerPayload frames
in send order, the returned result code, and the final hands. -/
structure RoundOutcome where
  frames : List Sent
  result : Nat
  player : List Card
  dealer : List Card
deriving DecidableEq, Repr

/-- Python's `deck.pop()`: remove and return the LAST element; raises (here
`none`) on an empty deck. -/
def popCard (deck : List Card) : Option (Card × List Card) :=
  match deck.getLast? with
  | none => none
  | some c => some (c, deck.dropLast)

/-- The dealer `while hand_value(dealer) < 17` loop of `play_one_round`
(server.py lines 122-132), with the deck passed in reversed (pop) order:
`deck.pop()` removes the LAST card of the Python list, i.e. the HEAD of
`rdeck`.  Returns the final dealer hand, the frames sent so far, the last
card sent, and whether the loop exited by dealer bust (in which case the
terminal WIN frame has already been appended). -/
def dealerLoopRev (rdeck : List Card) (dealer : List Card)
    (frames : List Sent) (lastSent : Card) :
    Option (List Card × List Sent × Card × Bool) :=
  if hand_value dealer < 17 then
    match rdeck with
    | [] => none
    | card :: rest =>
      let dealer' := dealer ++ [card]
      let frames' := frames ++ [⟨RESULT_NOT_OVER, card⟩]
      if 21 < hand_value dealer' then
        some (dealer', frames' ++ [⟨RESULT_WIN, card⟩], card, true)
      else
        dealerLoopRev rest dealer' frames' card
  else
    some (dealer, frames, lastSent, false)

/-- The dealer loop on a deck in Python list order (popping from the end). -/
def dealerLoop (deck dealer : List Card) (frames : List Sent)
    (lastSent : Card) : Option (List Card × List Sent × Card × Bool) :=
  dealerLoopRev deck.reverse dealer frames lastSent

/-- The final result comparison of `play_one_round`
(server.py lines 138-147). -/
def resolve (ps ds : Nat) : Nat :=
  if 21 < ps then RESULT_LOSS
  else if 21 < ds then RESULT_WIN
  else if ds < ps then RESULT_WIN
  else if ps < ds then RESULT_LOSS
  else RESULT_TIE

/-- The player hit/stand `while True` loop of `play_one_round`
(server.py lines 89-151), including everything after the stand: hole-card
reveal, dealer loop, and the final resolution frame.  `decisions` models the
stream of decoded client payloads; running out of decisions models a client
disconnect / invalid payload (a `ConnectionError`). -/
def playerLoop (deck player dealer : List Card) (decisions : List Decision)
    (frames : List Sent) (_lastSent : Card) : Option RoundOutcome :=
  if 21 < hand_value player then
    some ⟨frames ++ [⟨RESULT_LOSS, player.getLastD (0, 0)⟩], RESULT_LOSS,
      player, dealer⟩
  else
    match decisions with
    | [] => none
    | d :: rest =>
      match d with
      | .hittt =>
        match popCard deck with
        | none => none
        | some (card, deck') =>
          playerLoop deck' (player ++ [card]) dealer rest
            (frames ++ [⟨RESULT_NOT_OVER, card⟩]) card
      | .stand =>
        let hole := dealer.getD 1 (0, 0)
        match dealerLoop deck dealer (frames ++ [⟨RESULT_NOT_OVER, hole⟩])
            hole with
        | none => none
        | some (dealer', frames2, lastSent2, busted) =>
          if busted then
            some ⟨frames2, RESULT_WIN, player, dealer'⟩
          else
            let r := resolve (hand_value player) (hand_value dealer')
            some ⟨frames2 ++ [⟨r, lastSent2⟩], r, player, dealer'⟩

/-- `play_one_round`: pop two player cards and two dealer cards off the end
of the deck, send player card 1, player card 2 and the dealer upcard as
NOT_OVER, then run the player loop. -/
def play_one_round (deck : List Card) (decisions : List Decision) :
    Option RoundOutcome :=
  match popCard deck with
  | none => none
  | some (p1, d1) =>
    match popCard d1 with
    | none => none
    | some (p2, d2) =>
      match popCard d2 with
      | none => none
      | some (u1, d3) =>
        match popCard d3 with
        | none => none
        | some (u2, d4) =>
          playerLoop d4 [p1, p2] [u1, u2] decisions
            [⟨RESULT_NOT_OVER, p1⟩, ⟨RESULT_NOT_OVER, p2⟩,
              ⟨RESULT_NOT_OVER, u1⟩] u1

/-- The per-session round loop of `handle_client`: play `n` rounds in
sequence, each with its own fresh deck and decision stream; a failing round
aborts the whole session (`ConnectionError` propagates). -/
def run_rounds : Nat → List (List Card × List Decision) →
    Option (List RoundOutcome)
  | 0, _ => some []
  | _ + 1, [] => none
  | n + 1, (deck, ds) :: rest =>
    match play_one_round deck ds with
    | none => none
    | some o =>
      match run_rounds n rest with
      | none => none
      | some os => some (o :: os)

/-- `handle_client` (server.py lines 154-175): decode the Request frame,
clamp `rounds < 1` up to 1, and play that many rounds.  Returns the clamped
round count together with the outcomes. -/
def handle_client (req : List Nat)
    (inputs : List (List Card × List Decision)) :
    Option (Nat × List RoundOutcome) :=
  match unpack_request req with
  | none => none
  | some (rounds, _) =>
    let rounds := if rounds < 1 then 1 else rounds
    match run_rounds rounds inputs with
    | none => none
    | some os => some (rounds, os)

/-! ## Codec helper lemmas -/

/-- A byte buffer: every element fits in one byte. -/
def ValidBytes (data : List Nat) : Prop := ∀ b ∈ data, b < 256

/-- The first four bytes of a buffer spell the magic cookie. -/
def cookieBytesOk (data : List Nat) : Prop :=
  data.getD 0 0 = 0xab ∧ data.getD 1 0 = 0xcd ∧ data.getD 2 0 = 0xdc ∧
    data.getD 3 0 = 0xba

theorem pack_name_length (n : List Nat) : (pack_name n).length = NAME_LEN := by
  simp [pack_name, List.length_take]

theorem takeWhile_append_zeros (n : List Nat) (m : Nat)
    (h : ∀ b ∈ n, b ≠ 0) :
    (n ++ List.replicate m 0).takeWhile (fun x => x != 0) = n := by
  induction n with
  | nil =>
    cases m with
    | zero => simp
    | succ k => simp [List.replicate_succ, List.takeWhile_cons]
  | cons a t ih =>
    have ha : a ≠ 0 := h a (by simp)
    have ht : ∀ b ∈ t, b ≠ 0 := fun b hb => h b (by simp [hb])
    simp [List.takeWhile_cons, ha, ih ht]

theorem unpack_name_pack_name (n : List Nat) (h1 : n.length ≤ NAME_LEN)
    (h2 : ∀ b ∈ n, b ≠ 0) : unpack_name (pack_name n) = n := by
  have ht : n.take NAME_LEN = n := List.take_of_length_le h1
  simp only [unpack_name, pack_name, ht]
  exact takeWhile_append_zeros n _ h2

theorem rd16_at5 (a0 a1 a2 a3 a4 a5 a6 : Nat) (rest : List Nat) :
    rd16 (a0 :: a1 :: a2 :: a3 :: a4 :: a5 :: a6 :: rest) 5 =
      a5 * 256 + a6 := rfl

theorem rd16_at6 (a0 a1 a2 a3 a4 a5 a6 a7 : Nat) (rest : List Nat) :
    rd16 (a0 :: a1 :: a2 :: a3 :: a4 :: a5 :: a6 :: a7 :: rest) 6 =
      a6 * 256 + a7 := rfl

theorem rd32_at0 (a0 a1 a2 a3 : Nat) (rest : List Nat) :
    rd32 (a0 :: a1 :: a2 :: a3 :: rest) 0 =
      ((a0 * 256 + a1) * 256 + a2) * 256 + a3 := rfl

theorem getD4_cons (a0 a1 a2 a3 a4 : Nat) (rest : List Nat) :
    (a0 :: a1 :: a2 :: a3 :: a4 :: rest).getD 4 0 = a4 := rfl

theorem getD5_cons (a0 a1 a2 a3 a4 a5 : Nat) (rest : List Nat) :
    (a0 :: a1 :: a2 :: a3 :: a4 :: a5 :: rest).getD 5 0 = a5 := rfl

theorem getD8_cons (a0 a1 a2 a3 a4 a5 a6 a7 a8 : Nat) (rest : List Nat) :
    (a0 :: a1 :: a2 :: a3 :: a4 :: a5 :: a6 :: a7 :: a8 :: rest).getD 8 0 =
      a8 := rfl

theorem pack_offer_explicit (p : Nat) (n : List Nat) :
    pack_offer p n =
      171 :: 205 :: 220 :: 186 :: 2 :: (p % 65536 / 256 % 256) ::
        (p % 65536 % 256) :: pack_name n := by
  simp [pack_offer, be32, be16, MAGIC_COOKIE, TYPE_OFFER]

theorem pack_request_explicit (r : Nat) (n : List Nat) :
    pack_request r n =
      171 :: 205 :: 220 :: 186 :: 3 :: (r % 256) :: pack_name n := by
  simp [pack_request, be32, MAGIC_COOKIE, TYPE_REQUEST]
theorem drop6_cons (a0 a1 a2 a3 a4 a5 : Nat) (rest : List Nat) :
    (a0 :: a1 :: a2 :: a3 :: a4 :: a5 :: rest).drop 6 = rest := rfl

theorem drop7_cons (a0 a1 a2 a3 a4 a5 a6 : Nat) (rest : List Nat) :
    (a0 :: a1 :: a2 :: a3 :: a4 :: a5 :: a6 :: rest).drop 7 = rest := rfl

theorem unpack_offer_roundtrip (p : Nat) (n : List Nat) (hp : p < 65536)
    (h1 : n.length ≤ NAME_LEN) (h2 : ∀ b ∈ n, b ≠ 0) :
    unpack_offer (pack_offer p n) = some (p, n) := by
  have hlen : (pack_name n).length = 32 := pack_name_length n
  have hp' : p % 65536 = p := Nat.mod_eq_of_lt hp
  have hrd : p / 256 % 256 * 256 + p % 256 = p := by omega
  rw [pack_offer_explicit, hp']
  unfold unpack_offer
  rw [rd32_at0, getD4_cons, rd16_at5, drop7_cons, hrd]
  simp only [List.length_cons, hlen]
  norm_num [MAGIC_COOKIE, TYPE_OFFER, OFFER_SIZE, NAME_LEN]
  rw [List.take_of_length_le (le_of_eq hlen)]
  exact unpack_name_pack_name n h1 h2

theorem unpack_request_roundtrip (r : Nat) (n : List Nat) (hr : r < 256)
    (h1 : n.length ≤ NAME_LEN) (h2 : ∀ b ∈ n, b ≠ 0) :
    unpack_request (pack_request r n) = some (r, n) := by
  have hlen : (pack_name n).length = 32 := pack_name_length n
  have hr' : r % 256 = r := Nat.mod_eq_of_lt hr
  rw [pack_request_explicit, hr']
  unfold unpack_request
  rw [rd32_at0, getD4_cons, getD5_cons, drop6_cons]
  simp only [List.length_cons, hlen]
  norm_num [MAGIC_COOKIE, TYPE_REQUEST, REQUEST_SIZE, NAME_LEN]
  rw [List.take_of_length_le (le_of_eq hlen)]
  exact unpack_name_pack_name n h1 h2

theorem unpack_server_payload_roundtrip (res rank suit : Nat)
    (h1 : res < 256) (h2 : rank < 65536) (h3 : suit < 256) :
    unpack_server_payload (pack_server_payload res rank suit) =
      some (res, rank, suit) := by
  have e1 : res % 256 = res := Nat.mod_eq_of_lt h1
  have e2 : rank % 65536 = rank := Nat.mod_eq_of_lt h2
  have e3 : suit % 256 = suit := Nat.mod_eq_of_lt h3
  have hdata : pack_server_payload res rank suit =
      171 :: 205 :: 220 :: 186 :: 4 :: res :: (rank / 256 % 256) ::
        (rank % 256) :: suit :: [] := by
    simp [pack_server_payload, be32, be16, MAGIC_COOKIE, TYPE_PAYLOAD, e1, e2,
      e3]
  have hrd : rank / 256 % 256 * 256 + rank % 256 = rank := by omega
  rw [hdata]
  unfold unpack_server_payload
  rw [rd32_at0, getD4_cons, getD5_cons, rd16_at6, getD8_cons, hrd]
  norm_num [MAGIC_COOKIE, TYPE_PAYLOAD, SERVER_PAYLOAD_SIZE]

theorem unpack_client_payload_roundtrip (d enc : List Nat)
    (h : pack_client_payload d = some enc) :
    unpack_client_payload enc = some d := by
  have hd : d = HITTT ∨ d = STAND := by
    by_contra hc
    push_neg at hc
    simp [pack_client_payload, hc.1, hc.2] at h
  rcases hd with hd | hd <;> subst hd <;>
    simp only [pack_client_payload, HITTT, STAND] at h <;> norm_num at h <;>
      rw [← h] <;> decide
/-- C1: the claim as frozen asserts `decode(encode(m)) == m` for ARBITRARY
name text, explicitly including names longer than 32 bytes and names with
embedded zero bytes.  Both fail: a 33-byte name decodes to its 32-byte
truncation, and a name with an embedded zero byte decodes to the prefix
before the zero. -/
theorem C1_counterexample :
    unpack_offer (pack_offer 80 (List.replicate 33 97)) ≠
        some (80, List.replicate 33 97) ∧
      unpack_request (pack_request 5 [97, 0, 98]) ≠ some (5, [97, 0, 98]) := by
  decide

/-- C1 (amended): for tcp_port in 0..65535, rounds in 0..255, decisions in
{Hittt, Stand}, result/rank/suit in their declared byte widths, and names
whose byte encoding is at most 32 bytes long and free of zero bytes,
decoding the encoding returns the original message for all four pack/unpack
pairs.  Names longer than 32 bytes or containing a zero byte decode to a
proper prefix instead (truncation, and cut at the first zero byte). -/
theorem C1_roundtrip_amended :
    (∀ p n, p < 65536 → n.length ≤ NAME_LEN → (∀ b ∈ n, b ≠ 0) →
      unpack_offer (pack_offer p n) = some (p, n)) ∧
    (∀ r n, r < 256 → n.length ≤ NAME_LEN → (∀ b ∈ n, b ≠ 0) →
      unpack_request (pack_request r n) = some (r, n)) ∧
    (∀ d enc, pack_client_payload d = some enc →
      unpack_client_payload enc = some d) ∧
    (∀ res rank suit, res < 256 → rank < 65536 → suit < 256 →
      unpack_server_payload (pack_server_payload res rank suit) =
        some (res, rank, suit)) :=
  ⟨unpack_offer_roundtrip, unpack_request_roundtrip,
    unpack_client_payload_roundtrip, unpack_server_payload_roundtrip⟩

/-- C1 witness: the amended round-trip at concrete values for each pair. -/
theorem C1_witness :
    unpack_offer (pack_offer 8080 [66, 74]) = some (8080, [66, 74]) ∧
      unpack_request (pack_request 3 [99]) = some (3, [99]) ∧
      unpack_client_payload (be32 MAGIC_COOKIE ++ [TYPE_PAYLOAD] ++ HITTT) =
        some HITTT ∧
      unpack_server_payload (pack_server_payload 2 13 1) = some (2, 13, 1) :=
  ⟨C1_roundtrip_amended.1 8080 [66, 74] (by decide) (by decide) (by decide),
    C1_roundtrip_amended.2.1 3 [99] (by decide) (by decide) (by decide),
    C1_roundtrip_amended.2.2.1 HITTT
      (be32 MAGIC_COOKIE ++ [TYPE_PAYLOAD] ++ HITTT) (by decide),
    C1_roundtrip_amended.2.2.2 2 13 1 (by decide) (by decide) (by decide)⟩
theorem byte_lt (data : List Nat) (hv : ValidBytes data) (i : Nat)
    (h : i < data.length) : data.getD i 0 < 256 := by
  rw [List.getD_eq_getElem data 0 h]
  exact hv _ (List.getElem_mem h)

theorem cookie_ne (data : List Nat) (hv : ValidBytes data)
    (hl : 4 ≤ data.length) (hc : ¬ cookieBytesOk data) :
    rd32 data 0 ≠ MAGIC_COOKIE := by
  intro heq
  apply hc
  have b0 := byte_lt data hv 0 (by omega)
  have b1 := byte_lt data hv 1 (by omega)
  have b2 := byte_lt data hv 2 (by omega)
  have b3 := byte_lt data hv 3 (by omega)
  unfold rd32 MAGIC_COOKIE at heq
  unfold cookieBytesOk
  simp only [Nat.zero_add] at heq
  omega
/-- C7: every decoder returns `none` on a buffer with any flipped
magic-cookie byte, on a wrong type tag, and on a buffer shorter than the
type's fixed length (Offer 39, Request 38, ClientPayload 10,
ServerPayload 9). -/
theorem C7_decode_rejects (data : List Nat) (hv : ValidBytes data) :
    (data.length < OFFER_SIZE → unpack_offer data = none) ∧
    (¬ cookieBytesOk data → unpack_offer data = none) ∧
    (data.getD 4 0 ≠ TYPE_OFFER → unpack_offer data = none) ∧
    (data.length < REQUEST_SIZE → unpack_request data = none) ∧
    (¬ cookieBytesOk data → unpack_request data = none) ∧
    (data.getD 4 0 ≠ TYPE_REQUEST → unpack_request data = none) ∧
    (data.length < CLIENT_PAYLOAD_SIZE → unpack_client_payload data = none) ∧
    (¬ cookieBytesOk data → unpack_client_payload data = none) ∧
    (data.getD 4 0 ≠ TYPE_PAYLOAD → unpack_client_payload data = none) ∧
    (data.length < SERVER_PAYLOAD_SIZE → unpack_server_payload data = none) ∧
    (¬ cookieBytesOk data → unpack_server_payload data = none) ∧
    (data.getD 4 0 ≠ TYPE_PAYLOAD → unpack_server_payload data = none) := by
  refine ⟨?_, ?_, ?_, ?_, ?_, ?_, ?_, ?_, ?_, ?_, ?_, ?_⟩
  · intro h; simp [unpack_offer, h]
  · intro hc
    by_cases hl : data.length < OFFER_SIZE
    · simp [unpack_offer, hl]
    · have hne := cookie_ne data hv
        (by unfold OFFER_SIZE NAME_LEN at hl; omega) hc
      simp [unpack_offer, hl, hne]
  · intro ht
    simp only [List.getD, List.get?_eq_getElem?] at ht
    by_cases hl : data.length < OFFER_SIZE
    · simp [unpack_offer, hl]
    · simp [unpack_offer, List.getD, hl, ht]
  · intro h; simp [unpack_request, h]
  · intro hc
    by_cases hl : data.length < REQUEST_SIZE
    · simp [unpack_request, hl]
    · have hne := cookie_ne data hv
        (by unfold REQUEST_SIZE NAME_LEN at hl; omega) hc
      simp [unpack_request, hl, hne]
  · intro ht
    simp only [List.getD, List.get?_eq_getElem?] at ht
    by_cases hl : data.length < REQUEST_SIZE
    · simp [unpack_request, hl]
    · simp [unpack_request, List.getD, hl, ht]
  · intro h
    have hne : data.length ≠ CLIENT_PAYLOAD_SIZE := by omega
    simp [unpack_client_payload, hne]
  · intro hc
    by_cases hl : data.length = CLIENT_PAYLOAD_SIZE
    · have hne := cookie_ne data hv
        (by unfold CLIENT_PAYLOAD_SIZE at hl; omega) hc
      simp [unpack_client_payload, hl, hne]
    · simp [unpack_client_payload, hl]
  · intro ht
    simp only [List.getD, List.get?_eq_getElem?] at ht
    by_cases hl : data.length = CLIENT_PAYLOAD_SIZE
    · simp [unpack_client_payload, List.getD, hl, ht]
    · simp [unpack_client_payload, hl]
  · intro h
    have hne : data.length ≠ SERVER_PAYLOAD_SIZE := by omega
    simp [unpack_server_payload, hne]
  · intro hc
    by_cases hl : data.length = SERVER_PAYLOAD_SIZE
    · have hne := cookie_ne data hv
        (by unfold SERVER_PAYLOAD_SIZE at hl; omega) hc
      simp [unpack_server_payload, hl, hne]
    · simp [unpack_server_payload, hl]
  · intro ht
    simp only [List.getD, List.get?_eq_getElem?] at ht
    by_cases hl : data.length = SERVER_PAYLOAD_SIZE
    · simp [unpack_server_payload, List.getD, hl, ht]
    · simp [unpack_server_payload, hl]

/-- C7 witness: one concrete rejected buffer, exercising a short read, a
wrong cookie, a too-short payload and a wrong type tag. -/
theorem C7_witness :
    unpack_offer [0, 0, 0, 0, 9] = none ∧
      unpack_request [0, 0, 0, 0, 9] = none ∧
      unpack_client_payload [0, 0, 0, 0, 9] = none ∧
      unpack_server_payload [0, 0, 0, 0, 9] = none := by
  have h := C7_decode_rejects [0, 0, 0, 0, 9]
    (by unfold ValidBytes; decide)
  exact ⟨h.1 (by decide), h.2.2.2.2.1 (by unfold cookieBytesOk; decide),
    h.2.2.2.2.2.2.1 (by decide),
    h.2.2.2.2.2.2.2.2.2.2.2 (by unfold TYPE_PAYLOAD; decide)⟩
/-- C8: encoding rejects any decision other than exactly the hit/stand
strings, and decoding a 10-byte frame whose 5 decision bytes are not exactly
one of the two strings returns `none`. -/
theorem C8_decision_validation :
    (∀ d : List Nat, d ≠ HITTT → d ≠ STAND → pack_client_payload d = none) ∧
    (∀ data : List Nat, data.length = CLIENT_PAYLOAD_SIZE →
      (data.drop 5).take 5 ≠ HITTT → (data.drop 5).take 5 ≠ STAND →
      unpack_client_payload data = none) := by
  constructor
  · intro d h1 h2
    simp [pack_client_payload, h1, h2]
  · intro data hl h1 h2
    simp [unpack_client_payload, hl, h1, h2]

/-- C8 witness: a junk decision is rejected by the encoder, and a 10-byte
frame with valid cookie and tag but junk decision bytes is rejected by the
decoder. -/
theorem C8_witness :
    pack_client_payload [1, 2, 3] = none ∧
      unpack_client_payload [171, 205, 220, 186, 4, 1, 1, 1, 1, 1] = none :=
  ⟨C8_decision_validation.1 [1, 2, 3] (by decide) (by decide),
    C8_decision_validation.2 [171, 205, 220, 186, 4, 1, 1, 1, 1, 1]
      (by decide) (by decide) (by decide)⟩

theorem rd32_append (b extra : List Nat) (i : Nat) (h : i + 4 ≤ b.length) :
    rd32 (b ++ extra) i = rd32 b i := by
  unfold rd32
  rw [List.getD_append _ _ _ _ (by omega), List.getD_append _ _ _ _ (by omega),
    List.getD_append _ _ _ _ (by omega), List.getD_append _ _ _ _ (by omega)]

theorem rd16_append (b extra : List Nat) (i : Nat) (h : i + 2 ≤ b.length) :
    rd16 (b ++ extra) i = rd16 b i := by
  unfold rd16
  rw [List.getD_append _ _ _ _ (by omega), List.getD_append _ _ _ _ (by omega)]

theorem name_slice_append (data extra : List Nat) (k : Nat)
    (h : k + NAME_LEN ≤ data.length) :
    ((data ++ extra).drop k).take NAME_LEN = (data.drop k).take NAME_LEN := by
  rw [List.drop_append_of_le_length (by omega),
    List.take_append_of_le_length (by rw [List.length_drop]; omega)]

/-- C10: length validation is asymmetric.  `unpack_offer` and
`unpack_request` accept any buffer of at least their fixed size (39/38
bytes) and ignore trailing bytes, while `unpack_client_payload` and
`unpack_server_payload` return `none` whenever the length is not exactly
10/9 bytes. -/
theorem C10_length_asymmetry :
    (∀ data extra : List Nat, OFFER_SIZE ≤ data.length →
      unpack_offer (data ++ extra) = unpack_offer data) ∧
    (∀ data extra : List Nat, REQUEST_SIZE ≤ data.length →
      unpack_request (data ++ extra) = unpack_request data) ∧
    (∀ data : List Nat, data.length ≠ CLIENT_PAYLOAD_SIZE →
      unpack_client_payload data = none) ∧
    (∀ data : List Nat, data.length ≠ SERVER_PAYLOAD_SIZE →
      unpack_server_payload data = none) := by
  refine ⟨?_, ?_, ?_, ?_⟩
  · intro data extra h
    have h39 : 4 + 1 + 2 + 32 ≤ data.length := by
      unfold OFFER_SIZE NAME_LEN at h; omega
    unfold unpack_offer
    rw [rd32_append _ _ _ (by omega), List.getD_append _ _ _ _ (by omega),
      rd16_append _ _ _ (by omega),
      name_slice_append _ _ _ (by unfold NAME_LEN; omega), List.length_append]
    have h1 : ¬ (data.length + extra.length < OFFER_SIZE) := by
      unfold OFFER_SIZE NAME_LEN; omega
    have h2 : ¬ (data.length < OFFER_SIZE) := by
      unfold OFFER_SIZE NAME_LEN; omega
    rw [if_neg h1, if_neg h2]
  · intro data extra h
    have h38 : 4 + 1 + 1 + 32 ≤ data.length := by
      unfold REQUEST_SIZE NAME_LEN at h; omega
    unfold unpack_request
    rw [rd32_append _ _ _ (by omega), List.getD_append _ _ _ _ (by omega),
      List.getD_append _ _ _ _ (by omega),
      name_slice_append _ _ _ (by unfold NAME_LEN; omega), List.length_append]
    have h1 : ¬ (data.length + extra.length < REQUEST_SIZE) := by
      unfold REQUEST_SIZE NAME_LEN; omega
    have h2 : ¬ (data.length < REQUEST_SIZE) := by
      unfold REQUEST_SIZE NAME_LEN; omega
    rw [if_neg h1, if_neg h2]
  · intro data h
    simp [unpack_client_payload, h]
  · intro data h
    simp [unpack_server_payload, h]

/-- C10 witness: a trailing byte after a well-formed Offer is ignored, while
a short ClientPayload and an 11-byte ServerPayload are rejected. -/
theorem C10_witness :
    unpack_offer (pack_offer 80 [] ++ [7]) = unpack_offer (pack_offer 80 []) ∧
      unpack_request (pack_request 2 [] ++ [7]) =
        unpack_request (pack_request 2 []) ∧
      unpack_client_payload [1, 2, 3] = none ∧
      unpack_server_payload [171, 205, 220, 186, 4, 0, 0, 13, 1, 0, 0] =
        none :=
  ⟨C10_length_asymmetry.1 (pack_offer 80 []) [7] (by decide),
    C10_length_asymmetry.2.1 (pack_request 2 []) [7] (by decide),
    C10_length_asymmetry.2.2.1 [1, 2, 3] (by decide),
    C10_length_asymmetry.2.2.2 [171, 205, 220, 186, 4, 0, 0, 13, 1, 0, 0]
      (by decide)⟩
/-- C5: `card_value` gives Ace (rank 1) the fixed value 11, ranks 11..13 the
value 10, and every other rank its own value; `hand_value` is the plain sum
of these (additive over concatenation, hence no re-valuation of Aces on
bust); value of Ace+King is 21, of 10+10+5 is 25, of Ace+Ace+9 is 31. -/
theorem C5_hand_value :
    card_value 1 = 11 ∧
      (∀ r, 11 ≤ r → card_value r = 10) ∧
      (∀ r, r ≠ 1 → r < 11 → card_value r = r) ∧
      (∀ h1 h2 : List Card,
        hand_value (h1 ++ h2) = hand_value h1 + hand_value h2) ∧
      hand_value [(1, 0), (13, 1)] = 21 ∧
      hand_value [(10, 0), (10, 1), (5, 2)] = 25 ∧
      hand_value [(1, 0), (1, 1), (9, 2)] = 31 := by
  refine ⟨rfl, ?_, ?_, ?_, by decide, by decide, by decide⟩
  · intro r hr
    have hne : r ≠ 1 := by omega
    simp [card_value, hne, hr]
  · intro r h1 h2
    have hlt : ¬ 11 ≤ r := by omega
    simp [card_value, h1, hlt]
  · intro h1 h2
    simp [hand_value]

/-- C5 witness: the rank cases and the additivity at concrete hands. -/
theorem C5_witness :
    card_value 12 = 10 ∧ card_value 7 = 7 ∧
      hand_value ([(1, 0)] ++ [(1, 1), (9, 2)]) =
        hand_value [(1, 0)] + hand_value [(1, 1), (9, 2)] :=
  ⟨C5_hand_value.2.1 12 (by decide), C5_hand_value.2.2.1 7 (by decide)
      (by decide),
    C5_hand_value.2.2.2.1 [(1, 0)] [(1, 1), (9, 2)]⟩
/-! ## Round-engine helper lemmas -/

theorem getLastD_concat {α : Type} (l : List α) (a d : α) :
    (l ++ [a]).getLastD d = a := by
  rw [List.getLastD_eq_getLast? d, List.getLast?_concat]
  rfl

theorem getLastD_mem {α : Type} (l : List α) (d : α) (h : l ≠ []) :
    l.getLastD d ∈ l := by
  rw [List.getLastD_eq_getLast? d l, List.getLast?_eq_getLast _ h]
  exact List.getLast_mem h

theorem getD_mem_of_lt {α : Type} (l : List α) (i : Nat) (d : α)
    (h : i < l.length) : l.getD i d ∈ l := by
  rw [List.getD_eq_getElem _ _ h]
  exact List.getElem_mem h

theorem resolve_ne_not_over (ps ds : Nat) : resolve ps ds ≠ RESULT_NOT_OVER := by
  unfold resolve RESULT_NOT_OVER RESULT_WIN RESULT_LOSS RESULT_TIE
  split_ifs <;> omega

theorem popCard_concat (l : List Card) (a : Card) :
    popCard (l ++ [a]) = some (a, l) := by
  simp [popCard, List.getLast?_concat, List.dropLast_concat]

/-- Full characterisation of the dealer draw loop: the drawn cards extend
the dealer hand, every draw happens from a hand strictly below 17, the loop
stops at the first total of at least 17, the frames are the draws in order
(plus a repeated WIN frame on bust), and the bust flag is set exactly when a
draw pushed the total above 21. -/
theorem dealerLoopRev_spec (rdeck : List Card) :
    ∀ dealer frames lastSent dealer2 frames2 last2 busted,
      dealerLoopRev rdeck dealer frames lastSent =
        some (dealer2, frames2, last2, busted) →
      ∃ draws : List Card,
        dealer2 = dealer ++ draws ∧
        last2 = draws.getLastD lastSent ∧
        frames2 = frames ++
          draws.map (fun c => ⟨RESULT_NOT_OVER, c⟩) ++
          (if busted then [⟨RESULT_WIN, last2⟩] else []) ∧
        (∀ j < draws.length, hand_value (dealer ++ draws.take j) < 17) ∧
        17 ≤ hand_value dealer2 ∧
        (busted = true ↔ 21 < hand_value dealer2 ∧ draws ≠ []) := by
  induction rdeck with
  | nil =>
    intro dealer frames lastSent dealer2 frames2 last2 busted h
    unfold dealerLoopRev at h
    by_cases h17 : hand_value dealer < 17
    · simp [h17] at h
    · simp only [h17, if_false, Option.some.injEq, Prod.mk.injEq] at h
      obtain ⟨e1, e2, e3, e4⟩ := h
      subst e1; subst e2; subst e3; subst e4
      refine ⟨[], by simp, by simp, by simp, by simp, by omega, by simp⟩
  | cons card rest ih =>
    intro dealer frames lastSent dealer2 frames2 last2 busted h
    unfold dealerLoopRev at h
    by_cases h17 : hand_value dealer < 17
    · simp only [h17, if_true] at h
      by_cases hbust : 21 < hand_value (dealer ++ [card])
      · simp only [hbust, if_true, Option.some.injEq, Prod.mk.injEq] at h
        obtain ⟨e1, e2, e3, e4⟩ := h
        subst e1; subst e2; subst e3; subst e4
        refine ⟨[card], rfl, by simp, by simp, ?_, by omega, by simp [hbust]⟩
        intro j hj
        simp only [List.length_singleton, Nat.lt_one_iff] at hj
        subst hj
        simpa using h17
      · simp only [hbust, if_false] at h
        obtain ⟨draws', d1, d2, d3, d4, d5, d6⟩ :=
          ih (dealer ++ [card]) (frames ++ [⟨RESULT_NOT_OVER, card⟩]) card
            dealer2 frames2 last2 busted h
        refine ⟨card :: draws', ?_, ?_, ?_, ?_, d5, ?_⟩
        · rw [d1, List.append_assoc]; rfl
        · rw [d2, List.getLastD_cons]
        · rw [d3, List.map_cons, List.append_assoc]
          simp
        · intro j hj
          cases j with
          | zero => simpa using h17
          | succ j' =>
            have hj' : j' < draws'.length := by
              simp only [List.length_cons] at hj; omega
            have hd := d4 j' hj'
            simpa [List.append_assoc] using hd
        · constructor
          · intro hb
            obtain ⟨hv21, _⟩ := d6.mp hb
            exact ⟨hv21, by simp⟩
          · rintro ⟨hv21, -⟩
            rcases Decidable.em (draws' = []) with hnil | hnil
            · exfalso
              rw [d1, hnil, List.append_nil] at hv21
              exact hbust hv21
            · exact d6.mpr ⟨hv21, hnil⟩
    · simp only [h17, if_false, Option.some.injEq, Prod.mk.injEq] at h
      obtain ⟨e1, e2, e3, e4⟩ := h
      subst e1; subst e2; subst e3; subst e4
      refine ⟨[], by simp, by simp, by simp, by simp, by omega, by simp⟩
/-- C4: whenever the dealer turn completes, the drawn cards extend the hand
reached after the hole-card reveal, every draw was taken from a hand value
strictly below 17 (so the dealer never draws on 17), and the loop stops at
the first total of at least 17. -/
theorem C4_dealer_policy (deck dealer : List Card) (frames : List Sent)
    (lastSent : Card) (dealer2 : List Card) (frames2 : List Sent)
    (last2 : Card) (busted : Bool)
    (h : dealerLoop deck dealer frames lastSent =
      some (dealer2, frames2, last2, busted)) :
    ∃ draws : List Card,
      dealer2 = dealer ++ draws ∧
      (∀ j < draws.length, hand_value (dealer ++ draws.take j) < 17) ∧
      17 ≤ hand_value dealer2 := by
  unfold dealerLoop at h
  obtain ⟨draws, h1, -, -, h4, h5, -⟩ :=
    dealerLoopRev_spec deck.reverse dealer frames lastSent dealer2 frames2
      last2 busted h
  exact ⟨draws, h1, h4, h5⟩

/-- C4 witness: a dealer holding 16 draws exactly one card (a 5, reaching
21) and stops. -/
theorem C4_witness :
    ∃ draws : List Card,
      [(10, 0), (6, 1), (5, 0)] = [(10, 0), (6, 1)] ++ draws ∧
      (∀ j < draws.length,
        hand_value ([(10, 0), (6, 1)] ++ draws.take j) < 17) ∧
      17 ≤ hand_value [(10, 0), (6, 1), (5, 0)] :=
  C4_dealer_policy [(5, 0)] [(10, 0), (6, 1)] [] (0, 0)
    [(10, 0), (6, 1), (5, 0)] [⟨RESULT_NOT_OVER, (5, 0)⟩] (5, 0) false
    (by decide)
/-- The default frame used by `List.getLastD` on frame lists. -/
def dSent : Sent := ⟨RESULT_NOT_OVER, (0, 0)⟩

/-- What `playerLoop` guarantees about the outcome record it returns.  The
hands only grow, every frame rides a card of a final hand, exactly the last
frame carries the (nonzero) returned result while all earlier frames are
NOT_OVER, the terminal frame repeats a card already transmitted earlier, and
when both final hands are at most 21 the result is the `resolve`
comparison with the dealer at 17 or more. -/
def PlayerLoopPost (player dealer : List Card) (o : RoundOutcome) : Prop :=
  (∃ pext, o.player = player ++ pext) ∧
  (∃ dext, o.dealer = dealer ++ dext) ∧
  (∀ f ∈ o.frames, f.card ∈ o.player ∨ f.card ∈ o.dealer) ∧
  o.frames ≠ [] ∧
  (o.frames.getLastD dSent).result = o.result ∧
  o.result ≠ RESULT_NOT_OVER ∧
  (∀ f ∈ o.frames.dropLast, f.result = RESULT_NOT_OVER) ∧
  (o.frames.getLastD dSent).card ∈ o.frames.dropLast.map Sent.card ∧
  (hand_value o.player ≤ 21 → hand_value o.dealer ≤ 21 →
    17 ≤ hand_value o.dealer ∧
    o.result = resolve (hand_value o.player) (hand_value o.dealer))

theorem playerLoop_bust_case (dealer player : List Card) (frames : List Sent)
    (o : RoundOutcome)
    (ho : o = ⟨frames ++ [(⟨RESULT_LOSS, player.getLastD (0, 0)⟩ : Sent)],
      RESULT_LOSS, player, dealer⟩)
    (hbust : 21 < hand_value player) (hne : player ≠ [])
    (hlast : player.getLastD (0, 0) ∈ frames.map Sent.card)
    (hres : ∀ f ∈ frames, f.result = RESULT_NOT_OVER)
    (hmem : ∀ f ∈ frames, f.card ∈ player ∨ f.card ∈ dealer) :
    PlayerLoopPost player dealer o := by
  subst ho
  unfold PlayerLoopPost
  refine ⟨⟨[], by simp⟩, ⟨[], by simp⟩, ?_, by simp, ?_, ?_, ?_, ?_, ?_⟩
  · show ∀ f ∈ frames ++ [(⟨RESULT_LOSS, player.getLastD (0, 0)⟩ : Sent)],
      f.card ∈ player ∨ f.card ∈ dealer
    intro f hf
    simp only [List.mem_append, List.mem_singleton] at hf
    rcases hf with hf | hf
    · exact hmem f hf
    · subst hf
      exact Or.inl (getLastD_mem player (0, 0) hne)
  · show ((frames ++
        [(⟨RESULT_LOSS, player.getLastD (0, 0)⟩ : Sent)]).getLastD dSent).result =
      RESULT_LOSS
    rw [getLastD_concat]
  · show RESULT_LOSS ≠ RESULT_NOT_OVER
    decide
  · show ∀ f ∈ (frames ++
        [(⟨RESULT_LOSS, player.getLastD (0, 0)⟩ : Sent)]).dropLast,
      f.result = RESULT_NOT_OVER
    simp only [List.dropLast_concat]
    exact hres
  · show ((frames ++
        [(⟨RESULT_LOSS, player.getLastD (0, 0)⟩ : Sent)]).getLastD dSent).card ∈
      ((frames ++
        [(⟨RESULT_LOSS, player.getLastD (0, 0)⟩ : Sent)]).dropLast).map Sent.card
    rw [getLastD_concat, List.dropLast_concat]
    exact hlast
  · show hand_value player ≤ 21 → hand_value dealer ≤ 21 → _
    intro h1 _
    exact absurd h1 (by omega)
theorem playerLoop_stand_case (deck dealer player : List Card)
    (frames : List Sent) (dealer' : List Card) (frames2 : List Sent)
    (last2 : Card) (busted : Bool) (o : RoundOutcome)
    (hd : 1 < dealer.length)
    (hdl : dealerLoop deck dealer
      (frames ++ [(⟨RESULT_NOT_OVER, dealer.getD 1 (0, 0)⟩ : Sent)])
      (dealer.getD 1 (0, 0)) = some (dealer', frames2, last2, busted))
    (ho : o = if busted then ⟨frames2, RESULT_WIN, player, dealer'⟩
      else ⟨frames2 ++
          [⟨resolve (hand_value player) (hand_value dealer'), last2⟩],
        resolve (hand_value player) (hand_value dealer'), player, dealer'⟩)
    (hres : ∀ f ∈ frames, f.result = RESULT_NOT_OVER)
    (hmem : ∀ f ∈ frames, f.card ∈ player ∨ f.card ∈ dealer) :
    PlayerLoopPost player dealer o := by
  unfold dealerLoop at hdl
  obtain ⟨draws, s1, s2, s3, s4, s5, s6⟩ :=
    dealerLoopRev_spec deck.reverse dealer _ _ dealer' frames2 last2 busted
      hdl
  have hhole : dealer.getD 1 (0, 0) ∈ dealer :=
    getD_mem_of_lt dealer 1 (0, 0) hd
  have hsub : ∀ c ∈ dealer, c ∈ dealer' := by
    intro c hc
    rw [s1]
    exact List.mem_append_left draws hc
  have hdraws : ∀ c ∈ draws, c ∈ dealer' := by
    intro c hc
    rw [s1]
    exact List.mem_append_right dealer hc
  have hlast2 : last2 ∈ dealer' := by
    rcases Decidable.em (draws = []) with hnil | hnil
    · rw [s2, hnil]
      exact hsub _ hhole
    · exact hdraws _ (s2 ▸ getLastD_mem draws _ hnil)
  have hmem2 : ∀ f ∈ (frames ++
      [(⟨RESULT_NOT_OVER, dealer.getD 1 (0, 0)⟩ : Sent)]) ++
      draws.map (fun c => (⟨RESULT_NOT_OVER, c⟩ : Sent)),
      f.card ∈ player ∨ f.card ∈ dealer' := by
    intro f hf
    rcases List.mem_append.mp hf with hf | hf
    · rcases List.mem_append.mp hf with hf | hf
      · rcases hmem f hf with hc | hc
        · exact Or.inl hc
        · exact Or.inr (hsub _ hc)
      · simp only [List.mem_singleton] at hf
        rw [hf]
        exact Or.inr (hsub _ hhole)
    · obtain ⟨c, hc, rfl⟩ := List.mem_map.mp hf
      exact Or.inr (hdraws _ hc)
  have hres2 : ∀ f ∈ (frames ++
      [(⟨RESULT_NOT_OVER, dealer.getD 1 (0, 0)⟩ : Sent)]) ++
      draws.map (fun c => (⟨RESULT_NOT_OVER, c⟩ : Sent)),
      f.result = RESULT_NOT_OVER := by
    intro f hf
    rcases List.mem_append.mp hf with hf | hf
    · rcases List.mem_append.mp hf with hf | hf
      · exact hres f hf
      · simp only [List.mem_singleton] at hf
        rw [hf]
    · obtain ⟨c, hc, rfl⟩ := List.mem_map.mp hf
      rfl
  have hlast2map : last2 ∈ ((frames ++
      [(⟨RESULT_NOT_OVER, dealer.getD 1 (0, 0)⟩ : Sent)]) ++
      draws.map (fun c => (⟨RESULT_NOT_OVER, c⟩ : Sent))).map Sent.card := by
    rcases Decidable.em (draws = []) with hnil | hnil
    · rw [s2, hnil]
      show dealer.getD 1 (0, 0) ∈ _
      rw [List.map_append]
      refine List.mem_append_left _ ?_
      rw [List.map_append]
      exact List.mem_append_right _ (by simp)
    · have hin : last2 ∈ draws := s2 ▸ getLastD_mem draws _ hnil
      have hfr : (⟨RESULT_NOT_OVER, last2⟩ : Sent) ∈
          draws.map (fun c => (⟨RESULT_NOT_OVER, c⟩ : Sent)) :=
        List.mem_map_of_mem _ hin
      rw [List.map_append]
      exact List.mem_append_right _
        (List.mem_map_of_mem Sent.card hfr)
  cases busted with
  | true =>
    rw [if_pos rfl] at ho s3
    subst ho
    obtain ⟨hv21, hdne⟩ := s6.mp rfl
    unfold PlayerLoopPost
    refine ⟨⟨[], by simp⟩, ⟨draws, s1⟩, ?_, ?_, ?_, ?_, ?_, ?_, ?_⟩
    · show ∀ f ∈ frames2, f.card ∈ player ∨ f.card ∈ dealer'
      intro f hf
      rw [s3] at hf
      rcases List.mem_append.mp hf with hf | hf
      · exact hmem2 f hf
      · simp only [List.mem_singleton] at hf
        rw [hf]
        exact Or.inr hlast2
    · show frames2 ≠ []
      rw [s3]
      simp
    · show (frames2.getLastD dSent).result = RESULT_WIN
      rw [s3, getLastD_concat]
    · show RESULT_WIN ≠ RESULT_NOT_OVER
      decide
    · show ∀ f ∈ frames2.dropLast, f.result = RESULT_NOT_OVER
      rw [s3, List.dropLast_concat]
      exact hres2
    · show (frames2.getLastD dSent).card ∈
        (frames2.dropLast).map Sent.card
      rw [s3, getLastD_concat, List.dropLast_concat]
      exact hlast2map
    · show hand_value player ≤ 21 → hand_value dealer' ≤ 21 → _
      intro _ h2
      exact absurd h2 (by omega)
  | false =>
    rw [if_neg (by simp)] at ho s3
    subst ho
    have s3' : frames2 = (frames ++
        [(⟨RESULT_NOT_OVER, dealer.getD 1 (0, 0)⟩ : Sent)]) ++
        draws.map (fun c => (⟨RESULT_NOT_OVER, c⟩ : Sent)) := by
      rw [s3]
      simp
    unfold PlayerLoopPost
    refine ⟨⟨[], by simp⟩, ⟨draws, s1⟩, ?_, ?_, ?_, ?_, ?_, ?_, ?_⟩
    · show ∀ f ∈ frames2 ++
        [(⟨resolve (hand_value player) (hand_value dealer'), last2⟩ : Sent)],
        f.card ∈ player ∨ f.card ∈ dealer'
      intro f hf
      rcases List.mem_append.mp hf with hf | hf
      · exact hmem2 f (s3' ▸ hf)
      · simp only [List.mem_singleton] at hf
        rw [hf]
        exact Or.inr hlast2
    · show frames2 ++ _ ≠ []
      simp
    · show ((frames2 ++
        [(⟨resolve (hand_value player) (hand_value dealer'), last2⟩ :
          Sent)]).getLastD dSent).result = _
      rw [getLastD_concat]
    · show resolve (hand_value player) (hand_value dealer') ≠
        RESULT_NOT_OVER
      exact resolve_ne_not_over _ _
    · show ∀ f ∈ (frames2 ++
        [(⟨resolve (hand_value player) (hand_value dealer'), last2⟩ :
          Sent)]).dropLast, f.result = RESULT_NOT_OVER
      rw [List.dropLast_concat]
      intro f hf
      exact hres2 f (s3' ▸ hf)
    · show ((frames2 ++
        [(⟨resolve (hand_value player) (hand_value dealer'), last2⟩ :
          Sent)]).getLastD dSent).card ∈ _
      rw [getLastD_concat, List.dropLast_concat]
      exact s3' ▸ hlast2map
    · show hand_value player ≤ 21 → hand_value dealer' ≤ 21 → _
      intro _ _
      exact ⟨s5, rfl⟩
theorem playerLoop_spec (dealer : List Card) (hd : 1 < dealer.length) :
    ∀ (decisions : List Decision) (deck player : List Card)
      (frames : List Sent) (ls : Card) (o : RoundOutcome),
      playerLoop deck player dealer decisions frames ls = some o →
      player ≠ [] →
      player.getLastD (0, 0) ∈ frames.map Sent.card →
      (∀ f ∈ frames, f.result = RESULT_NOT_OVER) →
      (∀ f ∈ frames, f.card ∈ player ∨ f.card ∈ dealer) →
      PlayerLoopPost player dealer o := by
  intro decisions
  induction decisions with
  | nil =>
    intro deck player frames ls o h hne hlast hres hmem
    simp only [playerLoop] at h
    by_cases hbust : 21 < hand_value player
    · rw [if_pos hbust] at h
      injection h with h
      exact playerLoop_bust_case dealer player frames o h.symm hbust hne
        hlast hres hmem
    · rw [if_neg hbust] at h
      simp at h
  | cons d rest ih =>
    intro deck player frames ls o h hne hlast hres hmem
    simp only [playerLoop] at h
    by_cases hbust : 21 < hand_value player
    · rw [if_pos hbust] at h
      injection h with h
      exact playerLoop_bust_case dealer player frames o h.symm hbust hne
        hlast hres hmem
    · rw [if_neg hbust] at h
      cases d with
      | hittt =>
        rcases hpop : popCard deck with - | ⟨card, deck'⟩
        · rw [hpop] at h
          simp at h
        · rw [hpop] at h
          have h' : playerLoop deck' (player ++ [card]) dealer rest
              (frames ++ [(⟨RESULT_NOT_OVER, card⟩ : Sent)]) card =
                some o := h
          have post := ih deck' (player ++ [card])
            (frames ++ [(⟨RESULT_NOT_OVER, card⟩ : Sent)]) card o h'
            (by simp)
            (by rw [getLastD_concat, List.map_append]
                exact List.mem_append_right _ (by simp))
            (by intro f hf
                rcases List.mem_append.mp hf with hf | hf
                · exact hres f hf
                · simp only [List.mem_singleton] at hf
                  rw [hf])
            (by intro f hf
                rcases List.mem_append.mp hf with hf | hf
                · rcases hmem f hf with hc | hc
                  · exact Or.inl (List.mem_append_left _ hc)
                  · exact Or.inr hc
                · simp only [List.mem_singleton] at hf
                  rw [hf]
                  exact Or.inl (List.mem_append_right _ (by simp)))
          obtain ⟨⟨pext, hp⟩, post'⟩ := post
          exact ⟨⟨card :: pext, by rw [hp, List.append_assoc]; rfl⟩, post'⟩
      | stand =>
        rcases hdl : dealerLoop deck dealer
            (frames ++ [(⟨RESULT_NOT_OVER, dealer.getD 1 (0, 0)⟩ : Sent)])
            (dealer.getD 1 (0, 0)) with - | ⟨dealer', frames2, last2, busted⟩
        · rw [hdl] at h
          simp at h
        · rw [hdl] at h
          have h' : (if busted then
              some (⟨frames2, RESULT_WIN, player, dealer'⟩ : RoundOutcome)
            else some ⟨frames2 ++
                [⟨resolve (hand_value player) (hand_value dealer'), last2⟩],
              resolve (hand_value player) (hand_value dealer'), player,
              dealer'⟩) = some o := h
          have ho : o = if busted then
              (⟨frames2, RESULT_WIN, player, dealer'⟩ : RoundOutcome)
            else ⟨frames2 ++
                [⟨resolve (hand_value player) (hand_value dealer'), last2⟩],
              resolve (hand_value player) (hand_value dealer'), player,
              dealer'⟩ := by
            cases busted
            · rw [if_neg (by simp)] at h' ⊢
              injection h' with h'
              exact h'.symm
            · rw [if_pos rfl] at h' ⊢
              injection h' with h'
              exact h'.symm
          exact playerLoop_stand_case deck dealer player frames dealer'
            frames2 last2 busted o hd hdl ho hres hmem
/-- Everything `play_one_round` guarantees about a finished round, for some
initial two-card hands. -/
theorem play_one_round_spec (deck : List Card) (decisions : List Decision)
    (o : RoundOutcome) (h : play_one_round deck decisions = some o) :
    ∃ p1 p2 u1 u2 : Card, PlayerLoopPost [p1, p2] [u1, u2] o := by
  unfold play_one_round at h
  rcases hp1 : popCard deck with - | ⟨p1, d1⟩
  · simp only [hp1] at h; simp at h
  simp only [hp1] at h
  rcases hp2 : popCard d1 with - | ⟨p2, d2⟩
  · simp only [hp2] at h; simp at h
  simp only [hp2] at h
  rcases hp3 : popCard d2 with - | ⟨u1, d3⟩
  · simp only [hp3] at h; simp at h
  simp only [hp3] at h
  rcases hp4 : popCard d3 with - | ⟨u2, d4⟩
  · simp only [hp4] at h; simp at h
  simp only [hp4] at h
  have h' : playerLoop d4 [p1, p2] [u1, u2] decisions
      [⟨RESULT_NOT_OVER, p1⟩, ⟨RESULT_NOT_OVER, p2⟩,
        ⟨RESULT_NOT_OVER, u1⟩] u1 = some o := h
  refine ⟨p1, p2, u1, u2, ?_⟩
  refine playerLoop_spec [u1, u2] (by simp) decisions d4 [p1, p2] _ u1 o h'
    (by simp) (by simp) ?_ ?_
  · intro f hf
    simp only [List.mem_cons, List.not_mem_nil, or_false] at hf
    rcases hf with hf | hf | hf <;> rw [hf]
  · intro f hf
    simp only [List.mem_cons, List.not_mem_nil, or_false] at hf
    rcases hf with hf | hf | hf <;> rw [hf] <;> simp
/-- C2: the claim asserts the terminal frame always carries the same card as
the most recently transmitted frame.  When the player is dealt two aces the
hand is 22 and busts before any decision: the code then sends the terminal
LOSS frame carrying the player's SECOND card `(1, 1)`, although the most
recently transmitted frame was the dealer upcard `(5, 0)`. -/
theorem C2_counterexample :
    play_one_round [(5, 1), (5, 0), (1, 1), (1, 0)] [] =
        some ⟨[⟨RESULT_NOT_OVER, (1, 0)⟩, ⟨RESULT_NOT_OVER, (1, 1)⟩,
          ⟨RESULT_NOT_OVER, (5, 0)⟩, ⟨RESULT_LOSS, (1, 1)⟩], RESULT_LOSS,
          [(1, 0), (1, 1)], [(5, 0), (5, 1)]⟩ ∧
      RESULT_LOSS ≠ RESULT_NOT_OVER ∧ ((1, 1) : Card) ≠ ((5, 0) : Card) := by
  decide

/-- C2 (amended): in every completed round each ServerPayload frame carries
a card of a final hand (a real card dealt that round), exactly the last
frame carries the (nonzero) round result while every earlier frame is
NOT_OVER, and the terminal frame repeats a card that was already transmitted
in an earlier frame of the round — but not necessarily the card of the most
recently transmitted frame: when the player busts on the initial deal the
terminal frame carries the player's second card although the dealer upcard
was transmitted after it. -/
theorem C2_invariant_amended (deck : List Card) (decisions : List Decision)
    (o : RoundOutcome) (h : play_one_round deck decisions = some o) :
    (∀ f ∈ o.frames, f.card ∈ o.player ∨ f.card ∈ o.dealer) ∧
      o.frames ≠ [] ∧
      (o.frames.getLastD dSent).result = o.result ∧
      o.result ≠ RESULT_NOT_OVER ∧
      (∀ f ∈ o.frames.dropLast, f.result = RESULT_NOT_OVER) ∧
      (o.frames.getLastD dSent).card ∈ o.frames.dropLast.map Sent.card := by
  obtain ⟨p1, p2, u1, u2, post⟩ := play_one_round_spec deck decisions o h
  obtain ⟨-, -, c3, c4, c5, c6, c7, c8, -⟩ := post
  exact ⟨c3, c4, c5, c6, c7, c8⟩

/-- C2 witness: the amended invariant evaluated on a concrete stand round. -/
theorem C2_witness :
    (∀ f ∈ ([⟨RESULT_NOT_OVER, (10, 2)⟩, ⟨RESULT_NOT_OVER, (9, 3)⟩,
        ⟨RESULT_NOT_OVER, (10, 0)⟩, ⟨RESULT_NOT_OVER, (10, 1)⟩,
        ⟨RESULT_LOSS, (10, 1)⟩] : List Sent),
      f.card ∈ [((10, 2) : Card), (9, 3)] ∨
        f.card ∈ [((10, 0) : Card), (10, 1)]) ∧
      ([⟨RESULT_NOT_OVER, (10, 2)⟩, ⟨RESULT_NOT_OVER, (9, 3)⟩,
        ⟨RESULT_NOT_OVER, (10, 0)⟩, ⟨RESULT_NOT_OVER, (10, 1)⟩,
        ⟨RESULT_LOSS, (10, 1)⟩] : List Sent) ≠ [] ∧
      (([⟨RESULT_NOT_OVER, (10, 2)⟩, ⟨RESULT_NOT_OVER, (9, 3)⟩,
        ⟨RESULT_NOT_OVER, (10, 0)⟩, ⟨RESULT_NOT_OVER, (10, 1)⟩,
        ⟨RESULT_LOSS, (10, 1)⟩] : List Sent).getLastD dSent).result =
        RESULT_LOSS ∧
      RESULT_LOSS ≠ RESULT_NOT_OVER ∧
      (∀ f ∈ ([⟨RESULT_NOT_OVER, (10, 2)⟩, ⟨RESULT_NOT_OVER, (9, 3)⟩,
        ⟨RESULT_NOT_OVER, (10, 0)⟩, ⟨RESULT_NOT_OVER, (10, 1)⟩,
        ⟨RESULT_LOSS, (10, 1)⟩] : List Sent).dropLast,
        f.result = RESULT_NOT_OVER) ∧
      (([⟨RESULT_NOT_OVER, (10, 2)⟩, ⟨RESULT_NOT_OVER, (9, 3)⟩,
        ⟨RESULT_NOT_OVER, (10, 0)⟩, ⟨RESULT_NOT_OVER, (10, 1)⟩,
        ⟨RESULT_LOSS, (10, 1)⟩] : List Sent).getLastD dSent).card ∈
        (([⟨RESULT_NOT_OVER, (10, 2)⟩, ⟨RESULT_NOT_OVER, (9, 3)⟩,
        ⟨RESULT_NOT_OVER, (10, 0)⟩, ⟨RESULT_NOT_OVER, (10, 1)⟩,
        ⟨RESULT_LOSS, (10, 1)⟩] : List Sent).dropLast).map Sent.card :=
  C2_invariant_amended [(10, 1), (10, 0), (9, 3), (10, 2)] [.stand]
    ⟨[⟨RESULT_NOT_OVER, (10, 2)⟩, ⟨RESULT_NOT_OVER, (9, 3)⟩,
      ⟨RESULT_NOT_OVER, (10, 0)⟩, ⟨RESULT_NOT_OVER, (10, 1)⟩,
      ⟨RESULT_LOSS, (10, 1)⟩], RESULT_LOSS, [(10, 2), (9, 3)],
      [(10, 0), (10, 1)]⟩ (by decide)
/-- C6: in every completed round in which the player's final total is at
most 21 and the dealer's final total lies in 17..21, the round result
returned by `play_one_round` is WIN when the player's total exceeds the
dealer's, LOSS when it is lower, and TIE when they are equal. -/
theorem C6_resolution (deck : List Card) (decisions : List Decision)
    (o : RoundOutcome) (h : play_one_round deck decisions = some o)
    (hp : hand_value o.player ≤ 21) (h17 : 17 ≤ hand_value o.dealer)
    (h21 : hand_value o.dealer ≤ 21) :
    (hand_value o.dealer < hand_value o.player → o.result = RESULT_WIN) ∧
      (hand_value o.player < hand_value o.dealer →
        o.result = RESULT_LOSS) ∧
      (hand_value o.player = hand_value o.dealer → o.result = RESULT_TIE) := by
  obtain ⟨p1, p2, u1, u2, post⟩ := play_one_round_spec deck decisions o h
  have hr := (post.2.2.2.2.2.2.2.2 hp h21).2
  refine ⟨?_, ?_, ?_⟩
  · intro hlt
    rw [hr]
    unfold resolve
    rw [if_neg (by omega), if_neg (by omega), if_pos hlt]
  · intro hlt
    rw [hr]
    unfold resolve
    rw [if_neg (by omega), if_neg (by omega), if_neg (by omega),
      if_pos hlt]
  · intro heq
    rw [hr]
    unfold resolve
    rw [if_neg (by omega), if_neg (by omega), if_neg (by omega),
      if_neg (by omega)]

/-- C6 witness: player stands on 19, dealer shows 20, result is LOSS. -/
theorem C6_witness :
    (hand_value [((10, 0) : Card), (10, 1)] <
        hand_value [((10, 2) : Card), (9, 3)] →
      RESULT_LOSS = RESULT_WIN) ∧
      (hand_value [((10, 2) : Card), (9, 3)] <
          hand_value [((10, 0) : Card), (10, 1)] →
        RESULT_LOSS = RESULT_LOSS) ∧
      (hand_value [((10, 2) : Card), (9, 3)] =
          hand_value [((10, 0) : Card), (10, 1)] →
        RESULT_LOSS = RESULT_TIE) :=
  C6_resolution [(10, 1), (10, 0), (9, 3), (10, 2)] [.stand]
    ⟨[⟨RESULT_NOT_OVER, (10, 2)⟩, ⟨RESULT_NOT_OVER, (9, 3)⟩,
      ⟨RESULT_NOT_OVER, (10, 0)⟩, ⟨RESULT_NOT_OVER, (10, 1)⟩,
      ⟨RESULT_LOSS, (10, 1)⟩], RESULT_LOSS, [(10, 2), (9, 3)],
      [(10, 0), (10, 1)]⟩ (by decide) (by decide) (by decide) (by decide)
/-- C3: the claim asserts that exactly ONE more ServerPayload frame follows
the bust-causing Hittt — "the bust card is sent once, not twice".  In the
code the drawn card is sent immediately as NOT_OVER (server.py line 111) and
then re-sent with result LOSS after the bust check (line 94): TWO frames
follow the decision and the bust card occurs in two frames.  Here the player
holds K+5, hits a 9 (total 24): the round produces five frames, not four,
and the 9 appears twice. -/
theorem C3_counterexample :
    play_one_round [(9, 0), (7, 1), (7, 0), (5, 0), (13, 0)]
        [Decision.hittt] =
      some ⟨[⟨RESULT_NOT_OVER, (13, 0)⟩, ⟨RESULT_NOT_OVER, (5, 0)⟩,
        ⟨RESULT_NOT_OVER, (7, 0)⟩, ⟨RESULT_NOT_OVER, (9, 0)⟩,
        ⟨RESULT_LOSS, (9, 0)⟩], RESULT_LOSS, [(13, 0), (5, 0), (9, 0)],
        [(7, 0), (7, 1)]⟩ ∧
      ([⟨RESULT_NOT_OVER, (13, 0)⟩, ⟨RESULT_NOT_OVER, (5, 0)⟩,
        ⟨RESULT_NOT_OVER, (7, 0)⟩, ⟨RESULT_NOT_OVER, (9, 0)⟩,
        ⟨RESULT_LOSS, (9, 0)⟩] : List Sent).length ≠ 3 + 1 ∧
      (([⟨RESULT_NOT_OVER, (13, 0)⟩, ⟨RESULT_NOT_OVER, (5, 0)⟩,
        ⟨RESULT_NOT_OVER, (7, 0)⟩, ⟨RESULT_NOT_OVER, (9, 0)⟩,
        ⟨RESULT_LOSS, (9, 0)⟩] : List Sent).filter
          (fun f => f.card == (9, 0))).length = 2 := by
  decide

/-- C3 (amended): whenever the player holds King+5 and hits a 9, the round
ends immediately as LOSS with no dealer turn (the dealer hand stays at its
two dealt cards and contributes no further frames), any remaining decisions
are ignored, and exactly TWO more frames follow the Hittt decision: the
drawn 9 as NOT_OVER, then the same 9 re-sent carrying result LOSS — the
bust card is sent twice, once as NOT_OVER and once with the result. -/
theorem C3_bust_amended (rest : List Card) (u1 u2 : Card) (sa sb sc : Nat)
    (ds : List Decision) :
    play_one_round (rest ++ [(9, sc), u2, u1, (5, sb), (13, sa)])
        (Decision.hittt :: ds) =
      some ⟨[⟨RESULT_NOT_OVER, (13, sa)⟩, ⟨RESULT_NOT_OVER, (5, sb)⟩,
        ⟨RESULT_NOT_OVER, u1⟩, ⟨RESULT_NOT_OVER, (9, sc)⟩,
        ⟨RESULT_LOSS, (9, sc)⟩], RESULT_LOSS,
        [(13, sa), (5, sb), (9, sc)], [u1, u2]⟩ := by
  have e1 : rest ++ [(9, sc), u2, u1, (5, sb), (13, sa)] =
      (rest ++ [(9, sc), u2, u1, (5, sb)]) ++ [(13, sa)] := by simp
  have e2 : rest ++ [(9, sc), u2, u1, (5, sb)] =
      (rest ++ [(9, sc), u2, u1]) ++ [(5, sb)] := by simp
  have e3 : rest ++ [(9, sc), u2, u1] =
      (rest ++ [(9, sc), u2]) ++ [u1] := by simp
  have e4 : rest ++ [(9, sc), u2] = (rest ++ [(9, sc)]) ++ [u2] := by simp
  unfold play_one_round
  rw [e1, popCard_concat]
  simp only [popCard_concat, e2, e3, e4]
  simp only [playerLoop, popCard_concat]
  norm_num [hand_value, card_value]
  rw [playerLoop.eq_def]
  rw [if_pos (by norm_num [hand_value, card_value])]
  simp
theorem run_rounds_length :
    ∀ (n : Nat) (inputs : List (List Card × List Decision))
      (os : List RoundOutcome),
      run_rounds n inputs = some os → os.length = n := by
  intro n
  induction n with
  | zero =>
    intro inputs os h
    simp only [run_rounds, Option.some.injEq] at h
    rw [← h]
    rfl
  | succ n ih =>
    intro inputs os h
    cases inputs with
    | nil => simp [run_rounds] at h
    | cons p rest =>
      obtain ⟨deck, ds⟩ := p
      simp only [run_rounds] at h
      rcases hpr : play_one_round deck ds with - | o
      · simp [hpr] at h
      · simp only [hpr] at h
        rcases hrr : run_rounds n rest with - | os'
        · simp [hrr] at h
        · simp only [hrr, Option.some.injEq] at h
          rw [← h]
          simp [ih rest os' hrr]

/-- C9: when the Request decodes with a rounds byte of 0 the server clamps
the count to 1 and plays exactly one round; any decoded value of at least 1
is played exactly that many times (every element of the returned outcome
list is one played round). -/
theorem C9_rounds_clamp (req : List Nat)
    (inputs : List (List Card × List Decision)) (r : Nat) (name : List Nat)
    (n : Nat) (os : List RoundOutcome)
    (hreq : unpack_request req = some (r, name))
    (h : handle_client req inputs = some (n, os)) :
    n = (if r = 0 then 1 else r) ∧ os.length = n := by
  unfold handle_client at h
  rw [hreq] at h
  have h' : (match run_rounds (if r < 1 then 1 else r) inputs with
      | none => none
      | some os => some ((if r < 1 then 1 else r), os)) = some (n, os) := h
  rcases hrr : run_rounds (if r < 1 then 1 else r) inputs with - | os'
  · rw [hrr] at h'
    exact absurd h' (by simp)
  · simp only [hrr, Option.some.injEq, Prod.mk.injEq] at h'
    obtain ⟨e1, e2⟩ := h'
    have hiff : (if r < 1 then 1 else r) = (if r = 0 then 1 else r) := by
      rcases Nat.eq_zero_or_pos r with hr | hr
      · rw [hr]
        decide
      · rw [if_neg (by omega), if_neg (by omega)]
    constructor
    · rw [← e1, hiff]
    · rw [← e2, ← e1]
      exact run_rounds_length _ inputs os' hrr

/-- C9 witness: a Request with rounds byte 0 is clamped to one round, and
exactly one round outcome is produced. -/
theorem C9_witness :
    (1 : Nat) = (if (0 : Nat) = 0 then 1 else 0) ∧
      ([(⟨[⟨RESULT_NOT_OVER, (10, 2)⟩, ⟨RESULT_NOT_OVER, (9, 3)⟩,
        ⟨RESULT_NOT_OVER, (10, 0)⟩, ⟨RESULT_NOT_OVER, (10, 1)⟩,
        ⟨RESULT_LOSS, (10, 1)⟩], RESULT_LOSS, [(10, 2), (9, 3)],
        [(10, 0), (10, 1)]⟩ : RoundOutcome)] :
          List RoundOutcome).length = 1 :=
  C9_rounds_clamp (pack_request 0 [])
    [([(10, 1), (10, 0), (9, 3), (10, 2)], [Decision.stand])] 0 [] 1
    [⟨[⟨RESULT_NOT_OVER, (10, 2)⟩, ⟨RESULT_NOT_OVER, (9, 3)⟩,
      ⟨RESULT_NOT_OVER, (10, 0)⟩, ⟨RESULT_NOT_OVER, (10, 1)⟩,
      ⟨RESULT_LOSS, (10, 1)⟩], RESULT_LOSS, [(10, 2), (9, 3)],
      [(10, 0), (10, 1)]⟩] (by decide) (by decide)
